import Mathlib

/-!
# Verification of the chatservice repository

Shallow embedding of the Go sources of `chatservice`:

* `Wprotocol` — `src/pkg/wprotocol/protocol.go` (wire codec).
* `Hub` — `src/internal/delivery/websocket/hub.go` (routing tables).
* `Repo` — `src/internal/repository/app_repo.go` (SQL operations, modelled
  over explicit relational states; the SQL engine is modelled as a relational
  store with transactional semantics, as the spec prescribes).
* `App` — `src/internal/usecase/app_usercase.go` (opcode dispatcher and the
  friend-accept flow) and the user-update path of the HTTP handler.

Go byte strings are modelled as `List Char` (the separator bytes `0x1E`/`0x1F`
are ASCII, so byte-level splitting in Go agrees with character-level splitting
here; UTF-8 multi-byte sequences never contain these bytes).  Machine integers
are modelled as `Nat`/`Int` with explicit range checks where the Go code
performs them.  UUIDs are modelled as `Nat` (the 128-bit value); lexicographic
order on canonical UUID strings agrees with numeric order on the value, which
justifies using `<` on `Nat` for the pair canonicalisation done on
`uuid.String()` in Go.
-/

namespace Wprotocol

/-- Constant `UnitSeparator = '\x1f'` from protocol.go. -/
def UnitSeparator : Char := Char.ofNat 31

/-- Constant `RecordSeparator = '\x1e'` from protocol.go. -/
def RecordSeparator : Char := Char.ofNat 30

/-- Models `bytes.SplitN(data, []byte{sep}, 2)`: the part before the first
occurrence of `sep`, and — when `sep` occurs — the remainder after it. -/
def splitFirst : List Char → Char → List Char × Option (List Char)
  | [], _ => ([], none)
  | c :: rest, sep =>
    if c = sep then ([], some rest)
    else
      let r := splitFirst rest sep
      (c :: r.1, r.2)

/-- Models `strconv.ParseUint(s, 10, 8)`: non-empty, decimal digits only,
value at most 255. -/
def parseUint8 (s : List Char) : Option Nat :=
  if s.isEmpty then none
  else if s.all (fun c => c.isDigit) then
    let v := s.foldl (fun acc c => acc * 10 + (c.toNat - 48)) 0
    if v ≤ 255 then some v else none
  else none

/-- Function `Parse` from protocol.go.  Splits at the first `US`, parses the
opcode as a decimal `uint8`, and splits the remaining tail (when a `US` was
present) on `RS`.  Returns `none` exactly where the Go code returns
`ErrInvalidPacket`. -/
def Parse (data : List Char) : Option (Nat × List (List Char)) :=
  let parts := splitFirst data UnitSeparator
  if parts.1.isEmpty then none
  else
    match parseUint8 parts.1 with
    | none => none
    | some op =>
      match parts.2 with
      | none => some (op, [])
      | some tail => some (op, tail.splitOn RecordSeparator)

/-- Function `Build` from protocol.go: decimal opcode, then `US`, then the
fields joined by `RS`.  `Nat.toDigits 10` models `strconv.Itoa`. -/
def Build (op : Nat) (params : List (List Char)) : List Char :=
  Nat.toDigits 10 op ++ UnitSeparator :: List.intercalate [RecordSeparator] params

end Wprotocol

namespace App

/-- Hex digit character (lowercase), used by the canonical UUID rendering of
github.com/google/uuid `UUID.String()`. -/
def hexChar (n : Nat) : Char := if n < 10 then Char.ofNat (48 + n) else Char.ofNat (87 + n)

/-- Big-endian fixed-width hexadecimal rendering. -/
def hexPad : Nat → Nat → List Char
  | 0, _ => []
  | w + 1, n => hexPad w (n / 16) ++ [hexChar (n % 16)]

/-- Models github.com/google/uuid `UUID.String()`: the canonical
8-4-4-4-12 lowercase hexadecimal form of the 128-bit value. -/
def uuidToString (u : Nat) : List Char :=
  let d := hexPad 32 u
  d.take 8 ++ '-' :: ((d.drop 8).take 4) ++ '-' :: ((d.drop 12).take 4) ++
    '-' :: ((d.drop 16).take 4) ++ '-' :: (d.drop 20)

/-- Hexadecimal digit value of a character, accepting both cases as Go's
uuid parser does. -/
def hexVal (c : Char) : Option Nat :=
  if '0' ≤ c ∧ c ≤ '9' then some (c.toNat - 48)
  else if 'a' ≤ c ∧ c ≤ 'f' then some (c.toNat - 87)
  else if 'A' ≤ c ∧ c ≤ 'F' then some (c.toNat - 55)
  else none

/-- Accumulates a hexadecimal digit string into a value; `none` when any
character is not a hexadecimal digit. -/
def parseHexDigits (cs : List Char) : Option Nat :=
  cs.foldl
    (fun acc c =>
      match acc, hexVal c with
      | some a, some v => some (a * 16 + v)
      | _, _ => none)
    (some 0)

/-- Models github.com/google/uuid `Parse` restricted to the canonical
36-character hyphenated form (the only form this codebase produces; Go
additionally accepts brace, URN and 32-character variants, which no caller
in this repository uses). -/
def uuidParseChars (cs : List Char) : Option Nat :=
  match cs.splitOn '-' with
  | [g1, g2, g3, g4, g5] =>
    if g1.length = 8 ∧ g2.length = 4 ∧ g3.length = 4 ∧ g4.length = 4 ∧ g5.length = 12 then
      parseHexDigits (g1 ++ g2 ++ g3 ++ g4 ++ g5)
    else none
  | _ => none

/-- Non-empty all-decimal-digit string to value. -/
def parseDecDigits (cs : List Char) : Option Nat :=
  if cs.isEmpty then none
  else if cs.all (fun c => c.isDigit) then
    some (cs.foldl (fun acc c => acc * 10 + (c.toNat - 48)) 0)
  else none

/-- Models `strconv.ParseInt(s, 10, 64)`: optional sign, decimal digits,
64-bit signed range check. -/
def parseInt64Chars (cs : List Char) : Option Int :=
  match cs with
  | [] => none
  | c :: rest =>
    let sd : Bool × List Char :=
      if c = '-' then (true, rest) else if c = '+' then (false, rest) else (false, c :: rest)
    match parseDecDigits sd.2 with
    | none => none
    | some n =>
      if sd.1 then
        if n ≤ 2 ^ 63 then some (-(n : Int)) else none
      else
        if n ≤ 2 ^ 63 - 1 then some (n : Int) else none

/-- Models `strconv.FormatInt(i, 10)` (and `strconv.Itoa`). -/
def intToChars (i : Int) : List Char := (toString i).data

/-- Models Go `time.Time.Format(time.RFC3339Nano)` applied to a model
timestamp.  The model clock is a `Nat`; the rendered text is an injective
function of it.  No claim depends on the exact text of a timestamp field,
only on which timestamp is rendered. -/
def formatRFC3339Nano (t : Nat) : List Char := Nat.toDigits 10 t

/-- Row of the `messages` table (db/init.sql) / `domain.Message`.
`messageUid` is the `uuid.UUID` value — a non-nullable Go value type. -/
structure MMsg where
  id : Int
  messageUid : Nat
  roomId : Nat
  userId : Nat
  content : List Char
  replyTo : Option Int
  createdAt : Nat
  updatedAt : Option Nat
  deletedAt : Option Nat
deriving DecidableEq

/-- Relational state visible to the dispatcher's repository calls:
`room_participants`, `messages` and `message_read_status` from db/init.sql,
plus the generator state of the store (`BIGSERIAL` counter, the next
`uuid_generate_v4()` value, and the `NOW()` clock). -/
structure MsgStore where
  participants : List (Nat × Nat × Bool)
  messages : List MMsg
  readStatus : List (Int × Nat × Nat)
  nextMsgId : Int
  freshUuid : Nat
  now : Nat
deriving DecidableEq

/-- `IsUserInRoom` from app_repo.go:
`SELECT EXISTS(SELECT 1 FROM room_participants WHERE user_id = $1 AND
room_id = $2 AND is_blocked = false)`.  Store-level query failures (the
`error` return) are not modelled; the store is the relational state itself. -/
def isUserInRoom (st : MsgStore) (u r : Nat) : Bool :=
  st.participants.any (fun p => p.1 == u && p.2.1 == r && p.2.2 == false)

/-- Descending creation-time order used by `ORDER BY created_at DESC`. -/
def msgDescLe (x y : MMsg) : Prop := y.createdAt ≤ x.createdAt

instance : DecidableRel msgDescLe := fun x y => Nat.decLe y.createdAt x.createdAt

instance : IsTotal MMsg msgDescLe := ⟨fun a b => Nat.le_total b.createdAt a.createdAt⟩

instance : IsTrans MMsg msgDescLe := ⟨fun _ _ _ hab hbc => Nat.le_trans hbc hab⟩

/-- `GetMessagesForRoom` from app_repo.go:
`SELECT ... FROM messages WHERE room_id = $1 AND deleted_at IS NULL ORDER BY
created_at DESC LIMIT $2 OFFSET $3`, rows collected and then reversed in
place by the Go code.  Postgres rejects a negative LIMIT or OFFSET, which the
model maps to `none` (the Go function then returns the error). -/
def getMessagesForRoom (msgs : List MMsg) (roomId : Nat) (limit offset : Int) :
    Option (List MMsg) :=
  if limit < 0 ∨ offset < 0 then none
  else
    let sel := msgs.filter (fun m => m.roomId == roomId && m.deletedAt == none)
    let sorted := List.insertionSort msgDescLe sel
    some (((sorted.drop offset.toNat).take limit.toNat).reverse)

/-- `CreateMessage` from app_repo.go:
`INSERT INTO messages (message_uid, room_id, user_id, content,
reply_to_message_id) VALUES (COALESCE($1, uuid_generate_v4()), $2, $3, $4, $5)
RETURNING id, message_uid, created_at`.  The parameter `$1` is bound from
`domain.Message.MessageUID`, whose Go type is the non-nullable value type
`uuid.UUID`; the driver therefore always transmits a concrete UUID (the zero
UUID included) and never SQL NULL, so the COALESCE fallback to
`uuid_generate_v4()` can never be selected.  `messages.message_uid` is UNIQUE
(db/init.sql), so inserting a duplicate `message_uid` fails. -/
def createMessage (st : MsgStore) (msg : MMsg) : Option (MMsg × MsgStore) :=
  let param : Option Nat := some msg.messageUid
  let uid := param.getD st.freshUuid
  if st.messages.any (fun m => m.messageUid == uid) then none
  else
    let row : MMsg :=
      { id := st.nextMsgId, messageUid := uid, roomId := msg.roomId, userId := msg.userId,
        content := msg.content, replyTo := msg.replyTo, createdAt := st.now,
        updatedAt := none, deletedAt := none }
    some (row, { st with messages := st.messages ++ [row], nextMsgId := st.nextMsgId + 1 })

/-- `UpdateMessage` from app_repo.go: `UPDATE messages SET content = $1,
updated_at = $2 WHERE id = $3 AND user_id = $4`; an error is returned when
zero rows are affected. -/
def updateMessage (st : MsgStore) (messageID : Int) (userID : Nat) (newContent : List Char) :
    Option MsgStore :=
  if st.messages.any (fun m => m.id == messageID && m.userId == userID) then
    some { st with
      messages := st.messages.map (fun m =>
        if m.id == messageID && m.userId == userID then
          { m with content := newContent, updatedAt := some st.now }
        else m) }
  else none

/-- `DeleteMessage` from app_repo.go: `DELETE FROM messages WHERE id = $1 AND
user_id = $2`; an error is returned when zero rows are affected. -/
def deleteMessage (st : MsgStore) (messageID : Int) (userID : Nat) : Option MsgStore :=
  if st.messages.any (fun m => m.id == messageID && m.userId == userID) then
    some { st with
      messages := st.messages.filter (fun m => !(m.id == messageID && m.userId == userID)) }
  else none

/-- `MarkMessageAsRead` from app_repo.go: `INSERT INTO message_read_status
(message_id, user_id, read_at) VALUES ($1, $2, NOW()) ON CONFLICT
(message_id, user_id) DO UPDATE SET read_at = NOW() RETURNING read_at`.
The foreign key on `message_id` makes the insert fail when the message does
not exist. -/
def markMessageAsRead (st : MsgStore) (messageID : Int) (userID : Nat) :
    Option (Nat × MsgStore) :=
  if st.messages.any (fun m => m.id == messageID) then
    let rs :=
      if st.readStatus.any (fun p => p.1 == messageID && p.2.1 == userID) then
        st.readStatus.map (fun p =>
          if p.1 == messageID && p.2.1 == userID then (messageID, userID, st.now) else p)
      else st.readStatus ++ [(messageID, userID, st.now)]
    some (st.now, { st with readStatus := rs })
  else none

/-- Outbound effect submitted to the hub's queues by the dispatcher
(`Broadcaster` in app_usercase.go). -/
inductive Action where
  | sendToUser (userID : Nat) (frame : List Char)
  | broadcastToRoom (roomID : Nat) (frame : List Char)
  | subscribe (userID roomID : Nat)
deriving DecidableEq

/-- Error frame sent by `checkMembership` in app_usercase.go. -/
def notMemberAction (u : Nat) : Action :=
  Action.sendToUser u (Wprotocol.Build 255 ["Not a member of this room".data])

/-- Parsed packet handed to the dispatcher (`wprotocol.Packet`). -/
structure WPacket where
  op : Nat
  payload : List (List Char)
deriving DecidableEq

/-- `handleSendMessage` from app_usercase.go. -/
def handleSendMessage (st : MsgStore) (senderID roomID clientMsgUID : Nat)
    (content : List Char) : MsgStore × List Action :=
  match createMessage st
      { id := 0, messageUid := clientMsgUID, roomId := roomID, userId := senderID,
        content := content, replyTo := none, createdAt := 0, updatedAt := none,
        deletedAt := none } with
  | none => (st, [])
  | some (created, st1) =>
    (st1,
      [Action.broadcastToRoom roomID (Wprotocol.Build 2
        [intToChars created.id, uuidToString created.messageUid, uuidToString created.roomId,
         uuidToString created.userId, formatRFC3339Nano created.createdAt, created.content])])

/-- `handleEditMessage` from app_usercase.go. -/
def handleEditMessage (st : MsgStore) (senderID : Nat) (msgID : Int) (roomID : Nat)
    (newContent : List Char) : MsgStore × List Action :=
  match updateMessage st msgID senderID newContent with
  | none => (st, [Action.sendToUser senderID (Wprotocol.Build 255 ["Failed to edit message".data])])
  | some st1 =>
    (st1, [Action.broadcastToRoom roomID
      (Wprotocol.Build 4 [intToChars msgID, uuidToString roomID, newContent])])

/-- `handleDeleteMessage` from app_usercase.go. -/
def handleDeleteMessage (st : MsgStore) (senderID : Nat) (msgID : Int) (roomID : Nat) :
    MsgStore × List Action :=
  match deleteMessage st msgID senderID with
  | none => (st, [Action.sendToUser senderID (Wprotocol.Build 255 ["Failed to delete message".data])])
  | some st1 =>
    (st1, [Action.broadcastToRoom roomID
      (Wprotocol.Build 6 [intToChars msgID, uuidToString roomID])])

/-- `handleReadMessage` from app_usercase.go. -/
def handleReadMessage (st : MsgStore) (msgID : Int) (userID roomID : Nat) :
    MsgStore × List Action :=
  match markMessageAsRead st msgID userID with
  | none => (st, [])
  | some (readAt, st1) =>
    (st1, [Action.broadcastToRoom roomID
      (Wprotocol.Build 8 [intToChars msgID, uuidToString roomID, uuidToString userID,
        "read".data, formatRFC3339Nano readAt])])

/-- `ProcessIncomingPacket` from app_usercase.go.  Opcode numbers are the
constants of protocol.go (1 MsgSend, 3 MsgEdit, 5 MsgDelete, 7 MsgRead,
20 WebRTCSignal).  Where the Go code ignores a parse error (`x, _ := ...`)
the model substitutes the Go zero value, exactly as the source does. -/
def processIncomingPacket (st : MsgStore) (senderID : Nat) (p : WPacket) :
    MsgStore × List Action :=
  if p.op = 1 then
    if p.payload.length < 3 then (st, [])
    else
      let roomID := (uuidParseChars (p.payload.getD 0 [])).getD 0
      let clientMsgUID := (uuidParseChars (p.payload.getD 1 [])).getD 0
      let content := p.payload.getD 2 []
      if isUserInRoom st senderID roomID then
        handleSendMessage st senderID roomID clientMsgUID content
      else (st, [notMemberAction senderID])
  else if p.op = 3 then
    if p.payload.length < 3 then (st, [])
    else
      match parseInt64Chars (p.payload.getD 0 []) with
      | none => (st, [])
      | some msgID =>
        match uuidParseChars (p.payload.getD 1 []) with
        | none => (st, [])
        | some roomID =>
          let newContent := p.payload.getD 2 []
          if isUserInRoom st senderID roomID then
            handleEditMessage st senderID msgID roomID newContent
          else (st, [notMemberAction senderID])
  else if p.op = 5 then
    if p.payload.length < 2 then (st, [])
    else
      match parseInt64Chars (p.payload.getD 0 []) with
      | none => (st, [])
      | some msgID =>
        match uuidParseChars (p.payload.getD 1 []) with
        | none => (st, [])
        | some roomID =>
          if isUserInRoom st senderID roomID then
            handleDeleteMessage st senderID msgID roomID
          else (st, [notMemberAction senderID])
  else if p.op = 7 then
    if p.payload.length < 2 then (st, [])
    else
      let msgID := (parseInt64Chars (p.payload.getD 0 [])).getD 0
      let roomID := (uuidParseChars (p.payload.getD 1 [])).getD 0
      if isUserInRoom st senderID roomID then
        handleReadMessage st msgID senderID roomID
      else (st, [notMemberAction senderID])
  else if p.op = 20 then
    if p.payload.length < 2 then (st, [])
    else
      let roomIDStr := p.payload.getD 0 []
      match uuidParseChars roomIDStr with
      | none => (st, [])
      | some roomID =>
        let signalData := p.payload.getD 1 []
        if isUserInRoom st senderID roomID then
          (st, [Action.broadcastToRoom roomID
            (Wprotocol.Build 20 [uuidToString senderID, roomIDStr, signalData])])
        else (st, [])
  else (st, [])

end App

namespace App

/-- Row of the `users` table as seen by the friend-accept flow
(`domain.User`; only the fields the flow reads). -/
structure FUser where
  id : Nat
  nickname : List Char
deriving DecidableEq

/-- Row of the `friendships` table / `domain.Friendship`. -/
structure Friendship where
  userOneID : Nat
  userTwoID : Nat
  status : String
  actionUserID : Nat
deriving DecidableEq

/-- Row of the `rooms` table / `domain.Room` (fields the flow uses). -/
structure FRoom where
  id : Nat
  type : String
  name : Option (List Char)
  ownerID : Option Nat
deriving DecidableEq

/-- Relational state used by the friend-accept flow, with the room id
generator of the store. -/
structure FDB where
  users : List FUser
  friendships : List Friendship
  rooms : List FRoom
  participants : List (Nat × Nat)
  nextRoomId : Nat
deriving DecidableEq

/-- `GetFriendship` from app_repo.go: canonicalises the pair (the Go code
swaps when `userOneID.String() > userTwoID.String()`; lexicographic order on
canonical UUID strings is numeric order on the value) and selects the row. -/
def getFriendship (db : FDB) (a b : Nat) : Option Friendship :=
  let p := if a > b then (b, a) else (a, b)
  db.friendships.find? (fun f => f.userOneID == p.1 && f.userTwoID == p.2)

/-- `UpdateFriendshipStatus` from app_repo.go: `UPDATE friendships SET
status = $3, action_user_id = $4, updated_at = NOW() WHERE user_one_id = $1
AND user_two_id = $2` (executed on the transaction). -/
def updateFriendshipStatus (db : FDB) (fs : Friendship) : FDB :=
  { db with
    friendships := db.friendships.map (fun f =>
      if f.userOneID == fs.userOneID && f.userTwoID == fs.userTwoID then
        { f with status := fs.status, actionUserID := fs.actionUserID }
      else f) }

/-- `CreateRoom` from app_repo.go: `INSERT INTO rooms (type, name, owner_id)
VALUES ($1, $2, $3) RETURNING id, created_at, updated_at` (on the
transaction); the store generates the id. -/
def createRoom (db : FDB) (rtype : String) (name : Option (List Char))
    (owner : Option Nat) : FRoom × FDB :=
  let room : FRoom := { id := db.nextRoomId, type := rtype, name := name, ownerID := owner }
  (room, { db with rooms := db.rooms ++ [room], nextRoomId := db.nextRoomId + 1 })

/-- `AddUserToRoom` from app_repo.go: `INSERT INTO room_participants
(user_id, room_id) VALUES ($1, $2)` (on the transaction). -/
def addUserToRoom (db : FDB) (u r : Nat) : FDB :=
  { db with participants := db.participants ++ [(u, r)] }

/-- Failure schedule for one `AcceptFriendRequest` run: which of the
fallible store calls errors.  The store is external (network, SQL engine),
so any of them may fail; the flags model that nondeterminism. -/
structure TxOracle where
  getFriendshipFails : Bool
  beginFails : Bool
  updateFriendshipFails : Bool
  createRoomFails : Bool
  addAccepterFails : Bool
  addRequesterFails : Bool
  commitFails : Bool
  getUserByIdFails : Bool
deriving DecidableEq

/-- Outcome of the `AcceptFriendRequest` flow.  `panicked` models the Go
runtime nil-pointer dereference. -/
inductive ARes where
  | ok
  | err (msg : String)
  | panicked
deriving DecidableEq

/-- `AcceptFriendRequest` from app_usercase.go (lines 172-233).  The
transaction is modelled as buffered writes on a copy of the relational
state: they become visible only at `Commit`; on any earlier failure the
deferred `Rollback` discards them (the error strings keep the Go format
prefix, dropping the wrapped store error text).  After commit the Go code
re-fetches the accepter discarding the error and dereferences the pointer;
when the lookup errors or finds no row the pointer is nil and the
dereference panics. -/
def acceptFriendRequest (db : FDB) (o : TxOracle) (accepterID requesterID : Nat) :
    ARes × FDB × List Action :=
  let fs? := if o.getFriendshipFails then none else getFriendship db accepterID requesterID
  match fs? with
  | none => (ARes.err "no pending friend request found", db, [])
  | some fs =>
    if fs.status ≠ "pending" ∨ fs.actionUserID = accepterID then
      (ARes.err "invalid friend request state", db, [])
    else if o.beginFails then (ARes.err "could not begin transaction", db, [])
    else if o.updateFriendshipFails then (ARes.err "failed to update friendship", db, [])
    else
      let fs1 := { fs with status := "accepted", actionUserID := accepterID }
      let tx1 := updateFriendshipStatus db fs1
      if o.createRoomFails then (ARes.err "failed to create private room", db, [])
      else
        let cr := createRoom tx1 "private" none none
        let room := cr.1
        let tx2 := cr.2
        if o.addAccepterFails then (ARes.err "failed to add accepter to room", db, [])
        else
          let tx3 := addUserToRoom tx2 accepterID room.id
          if o.addRequesterFails then (ARes.err "failed to add requester to room", db, [])
          else
            let tx4 := addUserToRoom tx3 requesterID room.id
            if o.commitFails then (ARes.err "transaction commit failed", db, [])
            else
              let db1 := tx4
              let accepter? :=
                if o.getUserByIdFails then none
                else db1.users.find? (fun u => u.id == accepterID)
              match accepter? with
              | none => (ARes.panicked, db1, [])
              | some accepter =>
                (ARes.ok, db1,
                  [Action.sendToUser requesterID (Wprotocol.Build 16
                      [uuidToString accepterID, accepter.nickname, uuidToString room.id]),
                   Action.subscribe requesterID room.id,
                   Action.sendToUser accepterID (Wprotocol.Build 13
                      [uuidToString room.id, "private".data, []]),
                   Action.subscribe accepterID room.id])

/-- Row of the `users` table as touched by `UpsertUser` (the columns the
statement can reference; `users` is created by the external identity
service, and unspecified columns default to NULL in the model). -/
structure URow where
  id : Nat
  email : Option (List Char)
  nickname : Option (List Char)
  username : Option (List Char)
deriving DecidableEq

/-- `UpsertUser` from app_repo.go: `INSERT INTO users (id, email) VALUES
($1, $2) ON CONFLICT (id) DO UPDATE SET email = COALESCE(users.email, $2)`.
The `nickname` argument of the Go method is not referenced by the SQL
statement. -/
def upsertUser (db : List URow) (id : Nat) (email nickname : Option (List Char)) :
    List URow :=
  if db.any (fun r => r.id == id) then
    db.map (fun r => if r.id == id then { r with email := r.email.or email } else r)
  else
    db ++ [{ id := id, email := email, nickname := none, username := none }]

/-- `AppHandler.updateUser` (POST /users/me) composed with
`AppUsecase.UpdateUser`: the handler binds `{email?, username?}` and passes
`payload.Username` as the `nickname` argument of the repository upsert. -/
def updateUserEndpoint (db : List URow) (userID : Nat)
    (email username : Option (List Char)) : List URow :=
  upsertUser db userID email username

end App

namespace Hub

/-- Socket handle (`websocket.Client`): identity, user id, subscribed room
set, and the outbound queue (`send` channel: open flag and buffered
frames). -/
structure HClient where
  cid : Nat
  userID : Nat
  rooms : List Nat
  sendOpen : Bool
  sendBuf : List (List Char)
deriving DecidableEq

/-- Hub routing state (hub.go): `clients`, `userClients`, `rooms`, plus the
backing store of client handles (Go reaches them through pointers; the model
keys them by `cid`). -/
structure HubState where
  clients : List Nat
  userClients : List (Nat × Nat)
  roomSubs : List (Nat × List Nat)
  cstore : List HClient
deriving DecidableEq

/-- Handle lookup by identity. -/
def getClient (st : HubState) (cid : Nat) : Option HClient :=
  st.cstore.find? (fun c => c.cid == cid)

/-- Replaces the stored handle with the same identity. -/
def setClient (st : HubState) (c : HClient) : HubState :=
  { st with cstore := st.cstore.map (fun d => if d.cid == c.cid then c else d) }

/-- Map update for `userClients` (overwrites any entry for the key). -/
def setAssoc (l : List (Nat × Nat)) (k v : Nat) : List (Nat × Nat) :=
  if l.any (fun p => p.1 == k) then
    l.map (fun p => if p.1 == k then (k, v) else p)
  else (k, v) :: l

/-- Map deletion for `userClients`. -/
def delAssoc (l : List (Nat × Nat)) (k : Nat) : List (Nat × Nat) :=
  l.filter (fun p => p.1 != k)

/-- Subscriber list of a room, when the room has an entry. -/
def roomList (st : HubState) (r : Nat) : Option (List Nat) :=
  (st.roomSubs.find? (fun p => p.1 == r)).map (fun p => p.2)

/-- Sets the subscriber list of a room (creating the entry when absent). -/
def setRoomSubs (st : HubState) (r : Nat) (subs : List Nat) : HubState :=
  if st.roomSubs.any (fun p => p.1 == r) then
    { st with roomSubs := st.roomSubs.map (fun p => if p.1 == r then (r, subs) else p) }
  else { st with roomSubs := st.roomSubs ++ [(r, subs)] }

/-- `Hub.doSubscribe` from hub.go: add the `(room, client)` edge in both
directions, creating the room entry when absent. -/
def doSubscribe (st : HubState) (cid r : Nat) : HubState :=
  let cur := (roomList st r).getD []
  let st1 := setRoomSubs st r (if cid ∈ cur then cur else cur ++ [cid])
  match getClient st1 cid with
  | none => st1
  | some c => setClient st1 { c with rooms := if r ∈ c.rooms then c.rooms else c.rooms ++ [r] }

/-- `Hub.doUnsubscribe` from hub.go: remove the edge in both directions,
pruning an emptied room entry. -/
def doUnsubscribe (st : HubState) (cid r : Nat) : HubState :=
  let st1 :=
    match roomList st r with
    | none => st
    | some l =>
      let l2 := l.filter (fun x => x != cid)
      if l2.isEmpty then { st with roomSubs := st.roomSubs.filter (fun p => p.1 != r) }
      else setRoomSubs st r l2
  match getClient st1 cid with
  | none => st1
  | some c => setClient st1 { c with rooms := c.rooms.filter (fun x => x != r) }

/-- Modelled from the spec: `Client.sendMessage` (client.go is not under
src/; only its callers are).  Spec §4.3: an outbound write is an enqueue of
the frame onto the handle's bounded queue, dropped when the queue is
unavailable; the capacity bound is not modelled (the claims only concern
whether a frame reaches a handle at all), so an enqueue appends when the
queue is open. -/
def sendMessage (st : HubState) (cid : Nat) (m : List Char) : HubState :=
  match getClient st cid with
  | none => st
  | some c => if c.sendOpen then setClient st { c with sendBuf := c.sendBuf ++ [m] } else st

/-- Register case of `Hub.Run` (hub.go lines 52-59): insert into `clients`
and `userClients` (a plain map overwrite), then subscribe the handle to each
room the repository reports for the user (`repoRooms` is that query's
result). -/
def register (st : HubState) (c : HClient) (repoRooms : List Nat) : HubState :=
  let st1 : HubState :=
    { st with
      cstore := st.cstore ++ [c],
      clients := if c.cid ∈ st.clients then st.clients else st.clients ++ [c.cid],
      userClients := setAssoc st.userClients c.userID c.cid }
  repoRooms.foldl (fun s r => doSubscribe s c.cid r) st1

/-- Unregister case of `Hub.Run` (hub.go lines 61-68): when present, remove
from `clients`, delete the user's `userClients` entry, unsubscribe from each
room in the handle's room set, and close the outbound queue. -/
def unregister (st : HubState) (cid : Nat) : HubState :=
  if cid ∈ st.clients then
    match getClient st cid with
    | none => st
    | some c =>
      let st1 : HubState :=
        { st with
          clients := st.clients.filter (fun x => x != cid),
          userClients := delAssoc st.userClients c.userID }
      let st2 := c.rooms.foldl (fun s r => doUnsubscribe s cid r) st1
      match getClient st2 cid with
      | none => st2
      | some c2 => setClient st2 { c2 with sendOpen := false }
  else st

/-- Broadcast case of `Hub.Run`: enqueue the frame to every subscriber of
the room. -/
def broadcast (st : HubState) (r : Nat) (m : List Char) : HubState :=
  match roomList st r with
  | none => st
  | some l => l.foldl (fun s cid => sendMessage s cid m) st

/-- Direct case of `Hub.Run`: enqueue the frame to the user's current
handle, when any. -/
def direct (st : HubState) (u : Nat) (m : List Char) : HubState :=
  match (st.userClients.find? (fun p => p.1 == u)).map (fun p => p.2) with
  | none => st
  | some cid => sendMessage st cid m

/-- Subscribe case of `Hub.Run`: resolve the user's current handle and
subscribe it. -/
def subscribeUser (st : HubState) (u r : Nat) : HubState :=
  match (st.userClients.find? (fun p => p.1 == u)).map (fun p => p.2) with
  | none => st
  | some cid => doSubscribe st cid r

end Hub

/-! ## Theorems -/

namespace Wprotocol

theorem splitFirst_append (pre post : List Char) (sep : Char) (h : sep ∉ pre) :
    splitFirst (pre ++ sep :: post) sep = (pre, some post) := by
  induction pre with
  | nil => simp [splitFirst]
  | cons c rest ih =>
    simp only [List.mem_cons, not_or] at h
    simp [splitFirst, Ne.symm h.1, ih h.2]

set_option maxRecDepth 8000 in
theorem opcode_digits_ok :
    ∀ op < 256, parseUint8 (Nat.toDigits 10 op) = some op ∧
      UnitSeparator ∉ Nat.toDigits 10 op := by
  decide

theorem parseUint8_ne_nil {s : List Char} {v : Nat} (h : parseUint8 s = some v) :
    s.isEmpty = false := by
  cases s with
  | nil => simp [parseUint8] at h
  | cons c rest => simp

end Wprotocol

/-- C2 counterexample: the claim includes the empty field list, but
`Build(op, [])` emits the opcode followed by a bare `US`, and `Parse` then
splits the empty tail on `RS`, producing a one-element list containing the
empty field — not the empty list.  Concretely
`Parse (Build 1 []) = some (1, [""])` and not `some (1, [])`. -/
theorem parse_build_empty_list_counterexample :
    Wprotocol.Parse (Wprotocol.Build 1 []) = some (1, [[]]) ∧
      Wprotocol.Parse (Wprotocol.Build 1 []) ≠ some (1, []) := by
  constructor
  · decide
  · decide

/-- C2 (amended): for every opcode `op < 256` and every non-empty list of
fields none of which contains the `US` (0x1F) or `RS` (0x1E) byte,
`Parse (Build op fields)` succeeds and returns exactly `(op, fields)`.
(For the empty field list, `Parse (Build op [])` instead returns the
one-element payload consisting of the empty field.) -/
theorem parse_build_roundtrip (op : Nat) (fields : List (List Char))
    (hop : op < 256) (hne : fields ≠ [])
    (hfree : ∀ f ∈ fields,
      Wprotocol.UnitSeparator ∉ f ∧ Wprotocol.RecordSeparator ∉ f) :
    Wprotocol.Parse (Wprotocol.Build op fields) = some (op, fields) := by
  have hd := Wprotocol.opcode_digits_ok op hop
  have hsplit := Wprotocol.splitFirst_append (Nat.toDigits 10 op)
    (List.intercalate [Wprotocol.RecordSeparator] fields) Wprotocol.UnitSeparator hd.2
  simp only [Wprotocol.Parse, Wprotocol.Build, hsplit,
    Wprotocol.parseUint8_ne_nil hd.1, Bool.false_eq_true, if_false, hd.1]
  rw [List.splitOn_intercalate fields Wprotocol.RecordSeparator
    (fun f hf => (hfree f hf).2) hne]

/-- Witness for the amended C2 theorem at a concrete input (a two-field
payload, one field empty). -/
theorem parse_build_roundtrip_witness :
    Wprotocol.Parse (Wprotocol.Build 2 [['a'], []]) = some (2, [['a'], []]) :=
  parse_build_roundtrip 2 [['a'], []] (by decide) (by decide) (by decide)

/-- C1 (code evidence): the register case of `Hub.Run` does not unregister a
prior live handle of the same user.  Concretely: handle 1 of user 7 is
registered and subscribed to room 5; handle 2 of the same user then
registers.  Afterwards handle 1 is still in `clients` with its queue open,
room 5 lists both handles, and a frame broadcast to room 5 is enqueued on
both handles — the claim (and the spec) say the prior handle is unregistered
first and the frame is observed only on the new handle. -/
theorem hub_register_does_not_unregister_prior_handle :
    let c1 : Hub.HClient := ⟨1, 7, [], true, []⟩
    let c2 : Hub.HClient := ⟨2, 7, [], true, []⟩
    let st0 := Hub.register ⟨[], [], [], []⟩ c1 [5]
    let st1 := Hub.register st0 c2 [5]
    let st2 := Hub.broadcast st1 5 ['h', 'i']
    1 ∈ st1.clients ∧
    (Hub.getClient st1 1).map (fun c => c.sendOpen) = some true ∧
    Hub.roomList st1 5 = some [1, 2] ∧
    (Hub.getClient st2 1).map (fun c => c.sendBuf) = some [['h', 'i']] ∧
    (Hub.getClient st2 2).map (fun c => c.sendBuf) = some [['h', 'i']] := by
  decide

/-- C4 counterexample: for the room-scoped opcode 20 (WebRTCSignal) a
negative membership check does not produce a `255 Error` frame to the
sender — the packet is dropped with no outbound action at all, while the
claim asserts an error frame is sent for every room-scoped opcode. -/
theorem webrtc_membership_denied_counterexample :
    let st : App.MsgStore := ⟨[], [], [], 1, 99, 0⟩
    let pkt : App.WPacket := ⟨20, ["00000000-0000-0000-0000-000000000001".data, "sdp".data]⟩
    App.uuidParseChars "00000000-0000-0000-0000-000000000001".data = some 1 ∧
    App.isUserInRoom st 5 1 = false ∧
    App.processIncomingPacket st 5 pkt = (st, []) := by
  decide

/-- C4 (amended): for the inbound opcodes MsgSend (1), MsgEdit (3),
MsgDelete (5) and MsgRead (7), a negative membership check for
`(sender, room_id)` makes the dispatcher send exactly one `255 Error` frame
to the sender and drop the packet — the store is unchanged and no frame goes
to any other client; for WebRTCSignal (20) the packet is likewise dropped
with no store mutation and no frame to any other client, but no error frame
is sent to the sender either. -/
theorem membership_denied_amended :
    (∀ (st : App.MsgStore) (sender : Nat) (r u c : List Char) (rest : List (List Char)),
      App.isUserInRoom st sender ((App.uuidParseChars r).getD 0) = false →
      App.processIncomingPacket st sender ⟨1, r :: u :: c :: rest⟩ =
        (st, [App.notMemberAction sender])) ∧
    (∀ (st : App.MsgStore) (sender : Nat) (p0 p1 p2 : List Char)
        (rest : List (List Char)) (mid : Int) (rid : Nat),
      App.parseInt64Chars p0 = some mid → App.uuidParseChars p1 = some rid →
      App.isUserInRoom st sender rid = false →
      App.processIncomingPacket st sender ⟨3, p0 :: p1 :: p2 :: rest⟩ =
        (st, [App.notMemberAction sender])) ∧
    (∀ (st : App.MsgStore) (sender : Nat) (p0 p1 : List Char)
        (rest : List (List Char)) (mid : Int) (rid : Nat),
      App.parseInt64Chars p0 = some mid → App.uuidParseChars p1 = some rid →
      App.isUserInRoom st sender rid = false →
      App.processIncomingPacket st sender ⟨5, p0 :: p1 :: rest⟩ =
        (st, [App.notMemberAction sender])) ∧
    (∀ (st : App.MsgStore) (sender : Nat) (p0 p1 : List Char) (rest : List (List Char)),
      App.isUserInRoom st sender ((App.uuidParseChars p1).getD 0) = false →
      App.processIncomingPacket st sender ⟨7, p0 :: p1 :: rest⟩ =
        (st, [App.notMemberAction sender])) ∧
    (∀ (st : App.MsgStore) (sender : Nat) (p0 p1 : List Char)
        (rest : List (List Char)) (rid : Nat),
      App.uuidParseChars p0 = some rid →
      App.isUserInRoom st sender rid = false →
      App.processIncomingPacket st sender ⟨20, p0 :: p1 :: rest⟩ = (st, [])) := by
  refine ⟨?_, ?_, ?_, ?_, ?_⟩
  · intro st sender r u c rest hm
    simp [App.processIncomingPacket, hm]
  · intro st sender p0 p1 p2 rest mid rid h0 h1 hm
    simp [App.processIncomingPacket, h0, h1, hm]
  · intro st sender p0 p1 rest mid rid h0 h1 hm
    simp [App.processIncomingPacket, h0, h1, hm]
  · intro st sender p0 p1 rest hm
    simp [App.processIncomingPacket, hm]
  · intro st sender p0 p1 rest rid h0 hm
    simp [App.processIncomingPacket, h0, hm]

/-- Witness for the amended C4 theorem: each of the five opcodes at a
concrete store in which the sender is in no room. -/
theorem membership_denied_amended_witness :
    App.processIncomingPacket ⟨[], [], [], 1, 99, 0⟩ 5
        ⟨1, ["x".data, "y".data, "hello".data]⟩ =
      (⟨[], [], [], 1, 99, 0⟩, [App.notMemberAction 5]) ∧
    App.processIncomingPacket ⟨[], [], [], 1, 99, 0⟩ 5
        ⟨3, ["7".data, "00000000-0000-0000-0000-000000000001".data, "new".data]⟩ =
      (⟨[], [], [], 1, 99, 0⟩, [App.notMemberAction 5]) ∧
    App.processIncomingPacket ⟨[], [], [], 1, 99, 0⟩ 5
        ⟨5, ["7".data, "00000000-0000-0000-0000-000000000001".data]⟩ =
      (⟨[], [], [], 1, 99, 0⟩, [App.notMemberAction 5]) ∧
    App.processIncomingPacket ⟨[], [], [], 1, 99, 0⟩ 5
        ⟨7, ["7".data, "00000000-0000-0000-0000-000000000001".data]⟩ =
      (⟨[], [], [], 1, 99, 0⟩, [App.notMemberAction 5]) ∧
    App.processIncomingPacket ⟨[], [], [], 1, 99, 0⟩ 5
        ⟨20, ["00000000-0000-0000-0000-000000000001".data, "sdp".data]⟩ =
      (⟨[], [], [], 1, 99, 0⟩, []) :=
  ⟨membership_denied_amended.1 _ 5 _ _ _ [] (by decide),
   membership_denied_amended.2.1 _ 5 _ _ _ [] 7 1 (by decide) (by decide) (by decide),
   membership_denied_amended.2.2.1 _ 5 _ _ [] 7 1 (by decide) (by decide) (by decide),
   membership_denied_amended.2.2.2.1 _ 5 _ _ [] (by decide),
   membership_denied_amended.2.2.2.2 _ 5 _ _ [] 1 (by decide) (by decide)⟩

/-- C7 (code evidence): a MsgSend whose `client_msg_uid` field is the zero
UUID is persisted and broadcast with `message_uid` equal to the zero UUID —
the `COALESCE($1, uuid_generate_v4())` never sees NULL because the Go field
is a non-nullable `uuid.UUID` — and a second identical send fails the UNIQUE
constraint on `message_uid`: the store is unchanged and no frame is
delivered, while the claim says a fresh uid is generated each time and both
sends succeed. -/
theorem msgsend_zero_client_uid_kept_and_second_send_fails :
    let st : App.MsgStore := ⟨[(4, 1, false)], [], [], 1, 99, 5⟩
    let pkt : App.WPacket :=
      ⟨1, ["00000000-0000-0000-0000-000000000001".data,
           "00000000-0000-0000-0000-000000000000".data, "hi".data]⟩
    let r1 := App.processIncomingPacket st 4 pkt
    r1.1.messages.map (fun m => m.messageUid) = [0] ∧
    r1.2 = [App.Action.broadcastToRoom 1 (Wprotocol.Build 2
      [App.intToChars 1, App.uuidToString 0, App.uuidToString 1, App.uuidToString 4,
       App.formatRFC3339Nano 5, "hi".data])] ∧
    App.processIncomingPacket r1.1 4 pkt = (r1.1, []) := by
  decide

/-- C6: every window returned by `GetMessagesForRoom` contains only
non-soft-deleted rows of the requested room (all drawn from the table) and
is sorted by ascending creation time — the internal descending scan plus
in-place reversal is not observable. -/
theorem getMessagesForRoom_window_spec (msgs : List App.MMsg) (roomId : Nat)
    (limit offset : Int) (res : List App.MMsg)
    (h : App.getMessagesForRoom msgs roomId limit offset = some res) :
    (∀ m ∈ res, m.roomId = roomId ∧ m.deletedAt = none ∧ m ∈ msgs) ∧
    List.Sorted (fun x y => x.createdAt ≤ y.createdAt) res := by
  unfold App.getMessagesForRoom at h
  split at h
  · simp at h
  · rw [Option.some_inj] at h
    subst h
    constructor
    · intro m hm
      rw [List.mem_reverse] at hm
      have h1 := List.mem_of_mem_take hm
      have h2 := List.mem_of_mem_drop h1
      rw [List.mem_insertionSort] at h2
      have h3 := List.mem_filter.mp h2
      have h4 := h3.2
      simp only [Bool.and_eq_true, beq_iff_eq] at h4
      exact ⟨h4.1, h4.2, h3.1⟩
    · have hs := List.sorted_insertionSort App.msgDescLe
        (msgs.filter (fun m => m.roomId == roomId && m.deletedAt == none))
      have h4 : List.Pairwise App.msgDescLe
          (((List.insertionSort App.msgDescLe
              (msgs.filter (fun m => m.roomId == roomId && m.deletedAt == none))).drop
            offset.toNat).take limit.toNat) :=
        List.Pairwise.sublist
          ((List.take_sublist _ _).trans (List.drop_sublist _ _)) hs
      exact List.pairwise_reverse.mpr (h4.imp (fun hab => hab))

/-- Witness for C6 at a concrete table: three rows of room 1, one
soft-deleted; the returned window is the two live rows in ascending
creation order. -/
theorem getMessagesForRoom_window_spec_witness :
    (∀ m ∈ [(⟨2, 12, 1, 4, [], none, 3, none, none⟩ : App.MMsg),
            (⟨1, 11, 1, 4, [], none, 5, none, none⟩ : App.MMsg)],
      m.roomId = 1 ∧ m.deletedAt = none ∧
        m ∈ [(⟨1, 11, 1, 4, [], none, 5, none, none⟩ : App.MMsg),
             (⟨2, 12, 1, 4, [], none, 3, none, none⟩ : App.MMsg),
             (⟨3, 13, 1, 4, [], none, 4, none, some 9⟩ : App.MMsg)]) ∧
    List.Sorted (fun x y => x.createdAt ≤ y.createdAt)
      [(⟨2, 12, 1, 4, [], none, 3, none, none⟩ : App.MMsg),
       (⟨1, 11, 1, 4, [], none, 5, none, none⟩ : App.MMsg)] :=
  getMessagesForRoom_window_spec
    [⟨1, 11, 1, 4, [], none, 5, none, none⟩,
     ⟨2, 12, 1, 4, [], none, 3, none, none⟩,
     ⟨3, 13, 1, 4, [], none, 4, none, some 9⟩] 1 2 0
    [⟨2, 12, 1, 4, [], none, 3, none, none⟩,
     ⟨1, 11, 1, 4, [], none, 5, none, none⟩] (by decide)

/-- C8: a successful `DeleteMessage` removes the matching rows from the
messages table outright (every surviving row was already present, and no
row for the deleted `(id, user)` pair survives), and none of the repository
operations that touch the messages table ever writes `deleted_at`: a created
row carries `deleted_at = NULL`, an update preserves each row's
`deleted_at`, and marking a message read leaves the table untouched. -/
theorem deleteMessage_is_hard_and_deleted_at_never_written :
    (∀ (st : App.MsgStore) (mid : Int) (uid : Nat) (st1 : App.MsgStore),
      App.deleteMessage st mid uid = some st1 →
      (∀ m ∈ st1.messages, ¬(m.id = mid ∧ m.userId = uid)) ∧
      (∀ m ∈ st1.messages, m ∈ st.messages)) ∧
    (∀ (st : App.MsgStore) (msg row : App.MMsg) (st1 : App.MsgStore),
      App.createMessage st msg = some (row, st1) →
      row.deletedAt = none ∧ ∀ m ∈ st1.messages, m ∈ st.messages ∨ m = row) ∧
    (∀ (st : App.MsgStore) (mid : Int) (uid : Nat) (nc : List Char) (st1 : App.MsgStore),
      App.updateMessage st mid uid nc = some st1 →
      ∀ m ∈ st1.messages, ∃ m0 ∈ st.messages, m.id = m0.id ∧ m.deletedAt = m0.deletedAt) ∧
    (∀ (st : App.MsgStore) (mid : Int) (uid : Nat) (t : Nat) (st1 : App.MsgStore),
      App.markMessageAsRead st mid uid = some (t, st1) →
      st1.messages = st.messages) := by
  refine ⟨?_, ?_, ?_, ?_⟩
  · intro st mid uid st1 h
    unfold App.deleteMessage at h
    split at h
    · rw [Option.some_inj] at h
      subst h
      constructor
      · intro m hm
        have h2 := (List.mem_filter.mp hm).2
        simp only [Bool.not_eq_eq_eq_not, Bool.not_true, Bool.and_eq_false_imp,
          beq_iff_eq] at h2
        intro hc
        simp [hc.1, hc.2] at h2
      · intro m hm
        exact (List.mem_filter.mp hm).1
    · exact absurd h (by simp)
  · intro st msg row st1 h
    unfold App.createMessage at h
    dsimp only at h
    split at h
    · exact absurd h (by simp)
    · rw [Option.some_inj, Prod.mk.injEq] at h
      obtain ⟨h1, h2⟩ := h
      subst h1
      subst h2
      refine ⟨rfl, ?_⟩
      intro m hm
      rcases List.mem_append.mp hm with h1 | h1
      · exact Or.inl h1
      · exact Or.inr (List.mem_singleton.mp h1)
  · intro st mid uid nc st1 h
    unfold App.updateMessage at h
    split at h
    · rw [Option.some_inj] at h
      subst h
      intro m hm
      rcases List.mem_map.mp hm with ⟨m0, hm0, hmap⟩
      refine ⟨m0, hm0, ?_⟩
      by_cases hc : (m0.id == mid && m0.userId == uid) = true
      · rw [if_pos hc] at hmap
        subst hmap
        exact ⟨rfl, rfl⟩
      · rw [if_neg hc] at hmap
        subst hmap
        exact ⟨rfl, rfl⟩
    · exact absurd h (by simp)
  · intro st mid uid t st1 h
    unfold App.markMessageAsRead at h
    split at h
    · rw [Option.some_inj, Prod.mk.injEq] at h
      rw [← h.2]
    · exact absurd h (by simp)

/-- Witness for C8: each of the four repository operations applied at a
concrete store holding one message row. -/
theorem deleteMessage_is_hard_witness :
    ((∀ m ∈ (List.nil : List App.MMsg), ¬(m.id = 1 ∧ m.userId = 4)) ∧
      (∀ m ∈ (List.nil : List App.MMsg),
        m ∈ [(⟨1, 11, 2, 4, [], none, 5, none, none⟩ : App.MMsg)])) ∧
    ((⟨1, 11, 2, 4, [], none, 7, none, none⟩ : App.MMsg).deletedAt = none ∧
      ∀ m ∈ [(⟨1, 11, 2, 4, [], none, 7, none, none⟩ : App.MMsg)],
        m ∈ ([] : List App.MMsg) ∨ m = ⟨1, 11, 2, 4, [], none, 7, none, none⟩) ∧
    (∀ m ∈ [(⟨1, 11, 2, 4, ['z'], none, 5, some 7, none⟩ : App.MMsg)],
      ∃ m0 ∈ [(⟨1, 11, 2, 4, [], none, 5, none, none⟩ : App.MMsg)],
        m.id = m0.id ∧ m.deletedAt = m0.deletedAt) ∧
    ({ participants := [], messages := [⟨1, 11, 2, 4, [], none, 5, none, none⟩],
       readStatus := [(1, 4, 7)], nextMsgId := 2, freshUuid := 99,
       now := 7 } : App.MsgStore).messages =
      ({ participants := [], messages := [⟨1, 11, 2, 4, [], none, 5, none, none⟩],
         readStatus := [], nextMsgId := 2, freshUuid := 99,
         now := 7 } : App.MsgStore).messages :=
  ⟨(deleteMessage_is_hard_and_deleted_at_never_written.1
      ⟨[], [⟨1, 11, 2, 4, [], none, 5, none, none⟩], [], 2, 99, 7⟩ 1 4
      ⟨[], [], [], 2, 99, 7⟩ (by decide)),
   (deleteMessage_is_hard_and_deleted_at_never_written.2.1
      ⟨[], [], [], 1, 99, 7⟩ ⟨0, 11, 2, 4, [], none, 0, none, none⟩
      ⟨1, 11, 2, 4, [], none, 7, none, none⟩
      ⟨[], [⟨1, 11, 2, 4, [], none, 7, none, none⟩], [], 2, 99, 7⟩ (by decide)),
   (deleteMessage_is_hard_and_deleted_at_never_written.2.2.1
      ⟨[], [⟨1, 11, 2, 4, [], none, 5, none, none⟩], [], 2, 99, 7⟩ 1 4 ['z']
      ⟨[], [⟨1, 11, 2, 4, ['z'], none, 5, some 7, none⟩], [], 2, 99, 7⟩ (by decide)),
   (deleteMessage_is_hard_and_deleted_at_never_written.2.2.2
      ⟨[], [⟨1, 11, 2, 4, [], none, 5, none, none⟩], [], 2, 99, 7⟩ 1 4 7
      ⟨[], [⟨1, 11, 2, 4, [], none, 5, none, none⟩], [(1, 4, 7)], 2, 99, 7⟩ (by decide))⟩

/-- C3: `AcceptFriendRequest` performs the friendship update, room creation
and both participant insertions atomically: whenever the call returns an
error the relational state is unchanged and no notification or subscription
was emitted; notifications and subscriptions are emitted only on a fully
committed run; and any room that exists after the call but not before has
both the accepter and the requester as participants. -/
theorem acceptFriendRequest_atomic (db : App.FDB) (o : App.TxOracle) (a r : Nat)
    (res : App.ARes) (db1 : App.FDB) (acts : List App.Action)
    (h : App.acceptFriendRequest db o a r = (res, db1, acts)) :
    (∀ s, res = App.ARes.err s → db1 = db ∧ acts = []) ∧
    (acts ≠ [] → res = App.ARes.ok) ∧
    (∀ room ∈ db1.rooms, room ∉ db.rooms →
      (a, room.id) ∈ db1.participants ∧ (r, room.id) ∈ db1.participants) := by
  unfold App.acceptFriendRequest at h
  dsimp only at h
  split at h
  · injection h with h1 hrest
    injection hrest with h2 h3
    subst h1; subst h2; subst h3
    exact ⟨fun s hs => ⟨rfl, rfl⟩, fun hne => absurd rfl hne,
      fun room hroom hnot => absurd hroom hnot⟩
  · split at h
    · injection h with h1 hrest
      injection hrest with h2 h3
      subst h1; subst h2; subst h3
      exact ⟨fun s hs => ⟨rfl, rfl⟩, fun hne => absurd rfl hne,
        fun room hroom hnot => absurd hroom hnot⟩
    · split at h
      · injection h with h1 hrest
        injection hrest with h2 h3
        subst h1; subst h2; subst h3
        exact ⟨fun s hs => ⟨rfl, rfl⟩, fun hne => absurd rfl hne,
          fun room hroom hnot => absurd hroom hnot⟩
      · split at h
        · injection h with h1 hrest
          injection hrest with h2 h3
          subst h1; subst h2; subst h3
          exact ⟨fun s hs => ⟨rfl, rfl⟩, fun hne => absurd rfl hne,
            fun room hroom hnot => absurd hroom hnot⟩
        · split at h
          · injection h with h1 hrest
            injection hrest with h2 h3
            subst h1; subst h2; subst h3
            exact ⟨fun s hs => ⟨rfl, rfl⟩, fun hne => absurd rfl hne,
              fun room hroom hnot => absurd hroom hnot⟩
          · split at h
            · injection h with h1 hrest
              injection hrest with h2 h3
              subst h1; subst h2; subst h3
              exact ⟨fun s hs => ⟨rfl, rfl⟩, fun hne => absurd rfl hne,
                fun room hroom hnot => absurd hroom hnot⟩
            · split at h
              · injection h with h1 hrest
                injection hrest with h2 h3
                subst h1; subst h2; subst h3
                exact ⟨fun s hs => ⟨rfl, rfl⟩, fun hne => absurd rfl hne,
                  fun room hroom hnot => absurd hroom hnot⟩
              · split at h
                · injection h with h1 hrest
                  injection hrest with h2 h3
                  subst h1; subst h2; subst h3
                  exact ⟨fun s hs => ⟨rfl, rfl⟩, fun hne => absurd rfl hne,
                    fun room hroom hnot => absurd hroom hnot⟩
                · split at h
                  · injection h with h1 hrest
                    injection hrest with h2 h3
                    subst h1; subst h2; subst h3
                    refine ⟨fun s hs => App.ARes.noConfusion hs,
                      fun hne => absurd rfl hne, ?_⟩
                    intro room hroom hnot
                    dsimp only [App.addUserToRoom, App.createRoom,
                      App.updateFriendshipStatus] at hroom ⊢
                    rcases List.mem_append.mp hroom with h1 | h1
                    · exact absurd h1 hnot
                    · rw [List.mem_singleton.mp h1]
                      exact ⟨by simp, by simp⟩
                  · injection h with h1 hrest
                    injection hrest with h2 h3
                    subst h1; subst h2; subst h3
                    refine ⟨fun s hs => App.ARes.noConfusion hs,
                      fun hne => rfl, ?_⟩
                    intro room hroom hnot
                    dsimp only [App.addUserToRoom, App.createRoom,
                      App.updateFriendshipStatus] at hroom ⊢
                    rcases List.mem_append.mp hroom with h1 | h1
                    · exact absurd h1 hnot
                    · rw [List.mem_singleton.mp h1]
                      exact ⟨by simp, by simp⟩

/-- Witness for C3: a concrete pending request accepted under a failure of
the second participant insertion — the error is reported, the state is
unchanged and nothing was emitted. -/
theorem acceptFriendRequest_atomic_witness :
    (∀ s, App.ARes.err "failed to add requester to room" = App.ARes.err s →
      (⟨[⟨1, "alice".data⟩, ⟨2, "bob".data⟩], [⟨1, 2, "pending", 1⟩], [], [], 100⟩ : App.FDB) =
        ⟨[⟨1, "alice".data⟩, ⟨2, "bob".data⟩], [⟨1, 2, "pending", 1⟩], [], [], 100⟩ ∧
      ([] : List App.Action) = []) ∧
    (([] : List App.Action) ≠ [] →
      App.ARes.err "failed to add requester to room" = App.ARes.ok) ∧
    (∀ room ∈ (⟨[⟨1, "alice".data⟩, ⟨2, "bob".data⟩], [⟨1, 2, "pending", 1⟩], [], [],
        100⟩ : App.FDB).rooms,
      room ∉ (⟨[⟨1, "alice".data⟩, ⟨2, "bob".data⟩], [⟨1, 2, "pending", 1⟩], [], [],
        100⟩ : App.FDB).rooms →
      (2, room.id) ∈ (⟨[⟨1, "alice".data⟩, ⟨2, "bob".data⟩], [⟨1, 2, "pending", 1⟩], [], [],
        100⟩ : App.FDB).participants ∧
      (1, room.id) ∈ (⟨[⟨1, "alice".data⟩, ⟨2, "bob".data⟩], [⟨1, 2, "pending", 1⟩], [], [],
        100⟩ : App.FDB).participants) :=
  acceptFriendRequest_atomic
    ⟨[⟨1, "alice".data⟩, ⟨2, "bob".data⟩], [⟨1, 2, "pending", 1⟩], [], [], 100⟩
    ⟨false, false, false, false, false, true, false, false⟩ 2 1
    (App.ARes.err "failed to add requester to room")
    ⟨[⟨1, "alice".data⟩, ⟨2, "bob".data⟩], [⟨1, 2, "pending", 1⟩], [], [], 100⟩
    [] (by decide)

theorem find?_map_ite (l : List App.Friendship) (pred : App.Friendship → Bool)
    (upd : App.Friendship → App.Friendship)
    (hupd : ∀ f, pred f = true → pred (upd f) = true) :
    (l.map (fun f => if pred f then upd f else f)).find? pred =
      (l.find? pred).map upd := by
  induction l with
  | nil => rfl
  | cons f tl ih =>
    by_cases hf : pred f = true
    · rw [List.map_cons, if_pos hf, List.find?_cons_of_pos _ (hupd f hf),
        List.find?_cons_of_pos _ hf]
      rfl
    · rw [List.map_cons, if_neg hf, List.find?_cons_of_neg _ hf,
        List.find?_cons_of_neg _ hf, ih]

/-- C5 (amended): when `AcceptFriendRequest` succeeds for a pair, invoking it
again for the same pair (with the friendship lookup itself not failing)
fails with the error "invalid friend request state", because the friendship
row is no longer in status `pending` — not with "no pending friend request
found" as the claim states. -/
theorem accept_twice_amended (db : App.FDB) (o o2 : App.TxOracle) (a r : Nat)
    (db1 : App.FDB) (acts : List App.Action)
    (h : App.acceptFriendRequest db o a r = (App.ARes.ok, db1, acts))
    (hg2 : o2.getFriendshipFails = false) :
    (App.acceptFriendRequest db1 o2 a r).1 =
      App.ARes.err "invalid friend request state" := by
  unfold App.acceptFriendRequest at h
  dsimp only at h
  split at h
  · injection h with h1 hrest
    exact App.ARes.noConfusion h1
  next fs heq1 =>
    split at h
    · injection h with h1 hrest
      exact App.ARes.noConfusion h1
    next hc =>
      split at h
      · injection h with h1 hrest
        exact App.ARes.noConfusion h1
      next hb =>
        split at h
        · injection h with h1 hrest
          exact App.ARes.noConfusion h1
        next hu =>
          split at h
          · injection h with h1 hrest
            exact App.ARes.noConfusion h1
          next hcr =>
            split at h
            · injection h with h1 hrest
              exact App.ARes.noConfusion h1
            next haa =>
              split at h
              · injection h with h1 hrest
                exact App.ARes.noConfusion h1
              next har =>
                split at h
                · injection h with h1 hrest
                  exact App.ARes.noConfusion h1
                next hcm =>
                  split at h
                  · injection h with h1 hrest
                    exact App.ARes.noConfusion h1
                  next accepter heq2 =>
                    by_cases hg : o.getFriendshipFails = true
                    · rw [if_pos hg] at heq1
                      exact Option.noConfusion heq1
                    · rw [if_neg hg] at heq1
                      injection h with h1 hrest
                      injection hrest with hdb hacts
                      have hfr : db1.friendships = db.friendships.map
                          (fun f =>
                            if f.userOneID == fs.userOneID && f.userTwoID == fs.userTwoID then
                              { f with status := "accepted", actionUserID := a }
                            else f) := by
                        rw [← hdb]
                        rfl
                      unfold App.getFriendship at heq1
                      dsimp only at heq1
                      have hp := List.find?_some heq1
                      simp only [Bool.and_eq_true, beq_iff_eq] at hp
                      rw [hp.1, hp.2] at hfr
                      have key := find?_map_ite db.friendships
                        (fun f => f.userOneID == (if a > r then (r, a) else (a, r)).1 &&
                          f.userTwoID == (if a > r then (r, a) else (a, r)).2)
                        (fun f => { f with status := "accepted", actionUserID := a })
                        (fun f hf => hf)
                      have hgf2 : App.getFriendship db1 a r =
                          some { fs with status := "accepted", actionUserID := a } := by
                        unfold App.getFriendship
                        dsimp only
                        rw [hfr, key, heq1]
                        rfl
                      unfold App.acceptFriendRequest
                      dsimp only
                      rw [hg2, if_neg Bool.false_ne_true, hgf2]
                      dsimp only
                      rw [if_pos (Or.inl (by decide))]

/-- Witness for the amended C5 theorem: the concrete pending request of C3's
scenario, accepted successfully once; the second invocation returns
"invalid friend request state". -/
theorem accept_twice_amended_witness :
    App.acceptFriendRequest
        ⟨[⟨1, "alice".data⟩, ⟨2, "bob".data⟩], [⟨1, 2, "pending", 1⟩], [], [], 100⟩
        ⟨false, false, false, false, false, false, false, false⟩ 2 1 =
      (App.ARes.ok,
        ⟨[⟨1, "alice".data⟩, ⟨2, "bob".data⟩], [⟨1, 2, "accepted", 2⟩],
         [⟨100, "private", none, none⟩], [(2, 100), (1, 100)], 101⟩,
        [App.Action.sendToUser 1 (Wprotocol.Build 16
            [App.uuidToString 2, "bob".data, App.uuidToString 100]),
         App.Action.subscribe 1 100,
         App.Action.sendToUser 2 (Wprotocol.Build 13
            [App.uuidToString 100, "private".data, []]),
         App.Action.subscribe 2 100]) ∧
    (App.acceptFriendRequest
        ⟨[⟨1, "alice".data⟩, ⟨2, "bob".data⟩], [⟨1, 2, "accepted", 2⟩],
         [⟨100, "private", none, none⟩], [(2, 100), (1, 100)], 101⟩
        ⟨false, false, false, false, false, false, false, false⟩ 2 1).1 =
      App.ARes.err "invalid friend request state" :=
  ⟨by decide,
   accept_twice_amended
     ⟨[⟨1, "alice".data⟩, ⟨2, "bob".data⟩], [⟨1, 2, "pending", 1⟩], [], [], 100⟩
     ⟨false, false, false, false, false, false, false, false⟩
     ⟨false, false, false, false, false, false, false, false⟩ 2 1
     ⟨[⟨1, "alice".data⟩, ⟨2, "bob".data⟩], [⟨1, 2, "accepted", 2⟩],
      [⟨100, "private", none, none⟩], [(2, 100), (1, 100)], 101⟩
     [App.Action.sendToUser 1 (Wprotocol.Build 16
         [App.uuidToString 2, "bob".data, App.uuidToString 100]),
      App.Action.subscribe 1 100,
      App.Action.sendToUser 2 (Wprotocol.Build 13
         [App.uuidToString 100, "private".data, []]),
      App.Action.subscribe 2 100]
     (by decide) rfl⟩

/-- C5 counterexample: accepting the same request twice — the first call
succeeds, and the second call does fail, but with the error
"invalid friend request state" (the row exists but is no longer `pending`),
not "no pending friend request found" as the claim states. -/
theorem accept_twice_counterexample :
    (App.acceptFriendRequest
        ⟨[⟨1, "alice".data⟩, ⟨2, "bob".data⟩], [⟨1, 2, "pending", 1⟩], [], [], 100⟩
        ⟨false, false, false, false, false, false, false, false⟩ 2 1).1 =
      App.ARes.ok ∧
    (App.acceptFriendRequest
        (App.acceptFriendRequest
          ⟨[⟨1, "alice".data⟩, ⟨2, "bob".data⟩], [⟨1, 2, "pending", 1⟩], [], [], 100⟩
          ⟨false, false, false, false, false, false, false, false⟩ 2 1).2.1
        ⟨false, false, false, false, false, false, false, false⟩ 2 1).1 =
      App.ARes.err "invalid friend request state" ∧
    (App.acceptFriendRequest
        (App.acceptFriendRequest
          ⟨[⟨1, "alice".data⟩, ⟨2, "bob".data⟩], [⟨1, 2, "pending", 1⟩], [], [], 100⟩
          ⟨false, false, false, false, false, false, false, false⟩ 2 1).2.1
        ⟨false, false, false, false, false, false, false, false⟩ 2 1).1 ≠
      App.ARes.err "no pending friend request found" := by
  decide

/-- C9: after the transaction has committed, the Go code re-fetches the
accepter discarding the error and dereferences `accepter.Nickname` without a
nil check.  When the lookup errors (first conjunct block) or when the store
has no row for the accepter (last conjunct), the operation panics — and the
friendship flip and room creation are already committed, with no
notification emitted. -/
theorem accept_post_commit_nil_user_panics :
    (App.acceptFriendRequest
        ⟨[⟨1, "alice".data⟩, ⟨2, "bob".data⟩], [⟨1, 2, "pending", 1⟩], [], [], 100⟩
        ⟨false, false, false, false, false, false, false, true⟩ 2 1).1 =
      App.ARes.panicked ∧
    (App.getFriendship
        (App.acceptFriendRequest
          ⟨[⟨1, "alice".data⟩, ⟨2, "bob".data⟩], [⟨1, 2, "pending", 1⟩], [], [], 100⟩
          ⟨false, false, false, false, false, false, false, true⟩ 2 1).2.1 2 1).map
        (fun f => f.status) = some "accepted" ∧
    (App.acceptFriendRequest
        ⟨[⟨1, "alice".data⟩, ⟨2, "bob".data⟩], [⟨1, 2, "pending", 1⟩], [], [], 100⟩
        ⟨false, false, false, false, false, false, false, true⟩ 2 1).2.1.rooms =
      [⟨100, "private", none, none⟩] ∧
    (App.acceptFriendRequest
        ⟨[⟨1, "alice".data⟩, ⟨2, "bob".data⟩], [⟨1, 2, "pending", 1⟩], [], [], 100⟩
        ⟨false, false, false, false, false, false, false, true⟩ 2 1).2.2 = [] ∧
    (App.acceptFriendRequest
        ⟨[⟨1, "alice".data⟩], [⟨1, 2, "pending", 1⟩], [], [], 100⟩
        ⟨false, false, false, false, false, false, false, false⟩ 2 1).1 =
      App.ARes.panicked := by
  decide

/-- C10: `POST /users/me` never writes the username/nickname argument: the
endpoint's result does not depend on it at all, and every row in the
post-state either corresponds to a pre-state row with identical id,
nickname and username — its email changed only when the stored email was
NULL — or is the freshly inserted row with NULL nickname and username (only
possible when no row with the caller's id existed). -/
theorem updateUser_never_writes_nickname :
    (∀ (dbu : List App.URow) (id : Nat) (e n n2 : Option (List Char)),
      App.updateUserEndpoint dbu id e n = App.updateUserEndpoint dbu id e n2) ∧
    (∀ (dbu : List App.URow) (id : Nat) (e n : Option (List Char)) (r1 : App.URow),
      r1 ∈ App.updateUserEndpoint dbu id e n →
      (∃ r0 ∈ dbu, r1.id = r0.id ∧ r1.nickname = r0.nickname ∧
        r1.username = r0.username ∧
        (r1.email = r0.email ∨ (r0.email = none ∧ r1.email = e))) ∨
      (r1 = { id := id, email := e, nickname := none, username := none } ∧
        ∀ r0 ∈ dbu, r0.id ≠ id)) := by
  constructor
  · intro dbu id e n n2
    rfl
  · intro dbu id e n r1 hr
    unfold App.updateUserEndpoint App.upsertUser at hr
    split at hr
    · rcases List.mem_map.mp hr with ⟨r0, hr0, hmap⟩
      left
      by_cases hid : (r0.id == id) = true
      · rw [if_pos hid] at hmap
        subst hmap
        refine ⟨r0, hr0, rfl, rfl, rfl, ?_⟩
        cases he : r0.email with
        | none =>
          right
          refine ⟨rfl, ?_⟩
          simp [he]
        | some v =>
          left
          simp [he]
      · rw [if_neg hid] at hmap
        subst hmap
        exact ⟨r0, hr0, rfl, rfl, rfl, Or.inl rfl⟩
    next hany =>
      rcases List.mem_append.mp hr with h1 | h1
      · exact Or.inl ⟨r1, h1, rfl, rfl, rfl, Or.inl rfl⟩
      · right
        refine ⟨List.mem_singleton.mp h1, ?_⟩
        intro r0 hr0 hid
        exact hany (List.any_eq_true.mpr ⟨r0, hr0, beq_iff_eq.mpr hid⟩)

/-- Witness for C10: a stored row with a nickname and username survives an
update that supplies a different username — nickname and username are
unchanged, and the NULL email is filled in. -/
theorem updateUser_never_writes_nickname_witness :
    (∃ r0 ∈ [(⟨1, none, some "nick".data, some "user".data⟩ : App.URow)],
      (⟨1, some "e".data, some "nick".data, some "user".data⟩ : App.URow).id = r0.id ∧
      (⟨1, some "e".data, some "nick".data, some "user".data⟩ : App.URow).nickname =
        r0.nickname ∧
      (⟨1, some "e".data, some "nick".data, some "user".data⟩ : App.URow).username =
        r0.username ∧
      ((⟨1, some "e".data, some "nick".data, some "user".data⟩ : App.URow).email =
          r0.email ∨
        (r0.email = none ∧
          (⟨1, some "e".data, some "nick".data, some "user".data⟩ : App.URow).email =
            some "e".data))) ∨
    ((⟨1, some "e".data, some "nick".data, some "user".data⟩ : App.URow) =
        { id := 1, email := some "e".data, nickname := none, username := none } ∧
      ∀ r0 ∈ [(⟨1, none, some "nick".data, some "user".data⟩ : App.URow)], r0.id ≠ 1) :=
  updateUser_never_writes_nickname.2
    [⟨1, none, some "nick".data, some "user".data⟩] 1 (some "e".data) (some "nn".data)
    ⟨1, some "e".data, some "nick".data, some "user".data⟩ (by decide)
